import Mathlib

/-!
Verification of the directory-tree invariant checker in checkerDT.c.

The embedding models the data the checker observes through the Node and
Path collaborators: a path is a nonempty component sequence, a node
record holds a possibly-NULL path, a possibly-NULL parent reference and
an ordered list of child slots, and the whole store is a map from node
references to records.  Checker functions return an Option: none models
undefined behaviour (a Path operation applied to a NULL path, or a
traversal that exceeds its recursion budget, which the C code answers
by crashing or looping), and some (b, ds) models a normal return of b
with the list ds of diagnostic lines printed to the error stream.
-/

/-- A path value as observed through the Path collaborator: a nonempty
ordered sequence of name components, kept as a head component plus the
remaining components so that the depth is always at least 1. -/
structure PathV where
  first : String
  rest : List String
deriving DecidableEq

/-- The full component sequence of a path. -/
def PathV.components (p : PathV) : List String :=
  p.first :: p.rest

/-- Models Path_getDepth: the number of components. -/
def Path_getDepth (p : PathV) : Nat :=
  p.components.length

/-- Models Path_getPathname: the components joined by the separator. -/
def Path_getPathname (p : PathV) : String :=
  String.intercalate "/" p.components

/-- Three-way byte-wise comparison of two character lists, as strcmp
orders the underlying bytes: shorter is smaller on an equal beginning. -/
def charListCmp3 : List Char → List Char → Int
  | [], [] => 0
  | [], _ :: _ => -1
  | _ :: _, [] => 1
  | a :: as, b :: bs =>
    if a.toNat < b.toNat then -1
    else if b.toNat < a.toNat then 1
    else charListCmp3 as bs

/-- Three-way comparison of two strings as an integer sign. -/
def strCmp3 (a b : String) : Int :=
  charListCmp3 a.data b.data

/-- Three-way lexicographic comparison of component sequences:
component by component, shorter is smaller on an equal beginning. -/
def listCmp3 : List String → List String → Int
  | [], [] => 0
  | [], _ :: _ => -1
  | _ :: _, [] => 1
  | a :: as, b :: bs => if strCmp3 a b = 0 then listCmp3 as bs else strCmp3 a b

/-- Models Path_comparePath: three-way comparison on the component
sequences of the two paths. -/
def Path_comparePath (p q : PathV) : Int :=
  listCmp3 p.components q.components

/-- Length of the longest common component-wise beginning of two lists. -/
def sharedLen : List String → List String → Nat
  | a :: as, b :: bs => if a = b then 1 + sharedLen as bs else 0
  | _, _ => 0

/-- Models Path_getSharedPrefixDepth: the length of the longest common
component beginning of the two paths. -/
def Path_getSharedPrefixDepth (p q : PathV) : Nat :=
  sharedLen p.components q.components

/-- Whether the rendered pathname contains a slash character; models
the strchr test on the pathname in checkerDT.c line 95. -/
def pathnameHasSlash (p : PathV) : Bool :=
  (Path_getPathname p).data.any (fun c => c = '/')

/-- The SUCCESS status code of the a4 definitions (first enum value). -/
def SUCCESS : Int := 0

/-- One slot of a node's child list: the status Node_getChild reports
for this index, together with the node reference it stores through the
out parameter (none models the NULL pointer). -/
structure ChildSlot where
  status : Int
  node : Option Nat
deriving DecidableEq

/-- A node record: the fields the checker reads through the Node
accessors.  The path is none when Node_getPath returns NULL; the parent
is none when Node_getParent returns NULL. -/
structure NodeRec where
  path : Option PathV
  parent : Option Nat
  children : List ChildSlot
deriving DecidableEq

/-- The node store: every non-NULL node reference (a natural number)
dereferences to a record.  An Option Nat models a Node_T pointer, with
none as NULL. -/
structure DTHeap where
  nodes : Nat → NodeRec

/-- One diagnostic line, one constructor per fprintf site in
checkerDT.c, carrying the pathnames that the format arguments of the
parent-child message would print. -/
inductive Diag where
  | nullNode
  | pcPaths (parentName childName : String)
  | rootHasParent
  | nonRootNoParent
  | rootSlash
  | lexOrder
  | dupChildren
  | getChildFail
  | notInitCount
  | notInitRoot
  | initRootNull
  | countMismatch
deriving DecidableEq

/-- Models lines 74 to 100 of CheckerDT_Node_isValid: the checks that
follow the parent-path comparison.  The source fetches the node path
and immediately calls Path_getDepth on it (lines 75 and 76) before its
NULL test at line 89, so a node with an absent path reaches undefined
behaviour (none here) and the NULL-path diagnostic of line 90 is
unreachable. -/
def nodeIsValidTail (h : DTHeap) (nid : Nat) (oNParent : Option Nat) :
    Option (Bool × List Diag) :=
  match (h.nodes nid).path with
  | none => none
  | some pN =>
    if Path_getDepth pN = 1 ∧ oNParent ≠ none then
      some (false, [Diag.rootHasParent])
    else if 1 < Path_getDepth pN ∧ oNParent = none then
      some (false, [Diag.nonRootNoParent])
    else if Path_getDepth pN = 1 ∧ pathnameHasSlash pN then
      some (false, [Diag.rootSlash])
    else
      some (true, [])

/-- Models CheckerDT_Node_isValid (checkerDT.c lines 47 to 101): NULL
node check, then when a parent is present the shared-prefix comparison
of line 66 (whose Path calls on an absent path are undefined
behaviour), then the tail checks of lines 74 to 100. -/
def CheckerDT_Node_isValid (h : DTHeap) (oNNode : Option Nat) :
    Option (Bool × List Diag) :=
  match oNNode with
  | none => some (false, [Diag.nullNode])
  | some nid =>
    match (h.nodes nid).parent with
    | some pid =>
      match (h.nodes nid).path, (h.nodes pid).path with
      | some pN, some pP =>
        if Path_getSharedPrefixDepth pN pP ≠ Path_getDepth pN - 1 then
          some (false, [Diag.pcPaths (Path_getPathname pP) (Path_getPathname pN)])
        else nodeIsValidTail h nid (some pid)
      | _, _ => none
    | none => nodeIsValidTail h nid none

/-- Models the sibling-order loop of CheckerDT_treeCheck (lines 131 to
144): consecutive child slots are compared only when both retrieved
references are non-NULL, and the loop fails exactly when the comparison
is strictly greater than zero.  Comparing the paths of a retrieved
child whose path is NULL is undefined behaviour (none). -/
def treeCheckSiblings (h : DTHeap) : List ChildSlot → Option (Bool × List Diag)
  | [] => some (true, [])
  | [_] => some (true, [])
  | s1 :: s2 :: rest =>
    match s1.node, s2.node with
    | some c1, some c2 =>
      match (h.nodes c1).path, (h.nodes c2).path with
      | some p1, some p2 =>
        if 0 < Path_comparePath p1 p2 then some (false, [Diag.lexOrder])
        else treeCheckSiblings h (s2 :: rest)
      | _, _ => none
    | _, _ => treeCheckSiblings h (s2 :: rest)

/-- Models the inner loop of CheckerDT_noDuplicateChildren: one fixed
slot against every later slot, skipping any pair in which a retrieved
reference is NULL, failing exactly on a comparison equal to zero. -/
def noDupInner (h : DTHeap) (s1 : ChildSlot) : List ChildSlot → Option (Bool × List Diag)
  | [] => some (true, [])
  | s2 :: rest =>
    match s1.node, s2.node with
    | some c1, some c2 =>
      match (h.nodes c1).path, (h.nodes c2).path with
      | some p1, some p2 =>
        if Path_comparePath p1 p2 = 0 then some (false, [Diag.dupChildren])
        else noDupInner h s1 rest
      | _, _ => none
    | _, _ => noDupInner h s1 rest

/-- Models CheckerDT_noDuplicateChildren (lines 24 to 44) applied to a
node's child-slot list: every pair of distinct indices in order. -/
def CheckerDT_noDuplicateChildren (h : DTHeap) : List ChildSlot → Option (Bool × List Diag)
  | [] => some (true, [])
  | s :: rest =>
    match noDupInner h s rest with
    | some (true, _) => CheckerDT_noDuplicateChildren h rest
    | r => r

/-- The traversal engine behind CheckerDT_treeCheck.  The first mode
(Sum.inl) models a call of CheckerDT_treeCheck on a node pointer; the
second mode (Sum.inr) models the child loop of lines 151 to 165 over
the remaining slots.  The fuel bounds the recursion depth: the C code
has no such bound and loops forever on a cyclic store, which the model
answers with none once the budget is exhausted.  A successful check at
a node (some (true, _)) carries no diagnostics, so discarding its list
loses no printed line. -/
def tcGo (h : DTHeap) : Nat → Sum (Option Nat) (List ChildSlot) → Nat →
    Option (Bool × Nat × List Diag)
  | _, Sum.inl none, cnt => some (true, cnt, [])
  | _, Sum.inr [], cnt => some (true, cnt, [])
  | 0, _, _ => none
  | fuel + 1, Sum.inl (some nid), cnt =>
    match CheckerDT_Node_isValid h (some nid) with
    | none => none
    | some (false, ds) => some (false, cnt + 1, ds)
    | some (true, _) =>
      match treeCheckSiblings h (h.nodes nid).children with
      | none => none
      | some (false, ds) => some (false, cnt + 1, ds)
      | some (true, _) =>
        match CheckerDT_noDuplicateChildren h (h.nodes nid).children with
        | none => none
        | some (false, ds) => some (false, cnt + 1, ds)
        | some (true, _) => tcGo h fuel (Sum.inr (h.nodes nid).children) (cnt + 1)
  | fuel + 1, Sum.inr (slot :: rest), cnt =>
    if slot.status ≠ SUCCESS then some (false, cnt, [Diag.getChildFail])
    else
      match tcGo h fuel (Sum.inl slot.node) cnt with
      | none => none
      | some (false, c, ds) => some (false, c, ds)
      | some (true, c, _) => tcGo h fuel (Sum.inr rest) c

/-- Models CheckerDT_treeCheck (lines 116 to 169): a NULL node returns
true leaving the counter untouched; otherwise the counter is bumped,
the node is validated, the sibling order and duplicate checks run, and
the traversal recurs on every child slot in order. -/
def CheckerDT_treeCheck (h : DTHeap) (fuel : Nat) (oNNode : Option Nat) (cnt : Nat) :
    Option (Bool × Nat × List Diag) :=
  tcGo h fuel (Sum.inl oNNode) cnt

/-- Modelled from the spec: the number of nodes reachable from a node
reference by following the child slots in pre-order, cut off by the
same fuel discipline as the traversal.  G4 speaks of counting all
reachable nodes via pre-order traversal; this definition is the
spec-side count the traversal result is compared against. -/
def reachGo (h : DTHeap) : Nat → Sum (Option Nat) (List ChildSlot) → Nat
  | _, Sum.inl none => 0
  | _, Sum.inr [] => 0
  | 0, _ => 0
  | fuel + 1, Sum.inl (some nid) => 1 + reachGo h fuel (Sum.inr (h.nodes nid).children)
  | fuel + 1, Sum.inr (slot :: rest) =>
    reachGo h fuel (Sum.inl slot.node) + reachGo h fuel (Sum.inr rest)

/-- Modelled from the spec: the pre-order reachable-node count of a
tree rooted at the given reference. -/
def specReachableCount (h : DTHeap) (fuel : Nat) (oNNode : Option Nat) : Nat :=
  reachGo h fuel (Sum.inl oNNode)

/-- Models CheckerDT_isValid (lines 172 to 207): the uninitialized
checks on count and root, the initialized root-NULL check, the
traversal, and the final count comparison. -/
def CheckerDT_isValid (h : DTHeap) (fuel : Nat) (bIsInitialized : Bool)
    (oNRoot : Option Nat) (ulCount : Nat) : Option (Bool × List Diag) :=
  if bIsInitialized = false then
    if ulCount ≠ 0 then some (false, [Diag.notInitCount])
    else if oNRoot ≠ none then some (false, [Diag.notInitRoot])
    else some (true, [])
  else if 0 < ulCount ∧ oNRoot = none then some (false, [Diag.initRootNull])
  else
    match CheckerDT_treeCheck h fuel oNRoot 0 with
    | none => none
    | some (false, _, ds) => some (false, ds)
    | some (true, nodeCount, _) =>
      if nodeCount ≠ ulCount then some (false, [Diag.countMismatch])
      else some (true, [])

/-- The local conditions CheckerDT_Node_isValid actually enforces on a
node whose path is present, collected as one proposition: the
parent-path comparison of line 66, the root checks of lines 77 and 83
and the slash check of line 95. -/
def specNodeChecks (h : DTHeap) (nid : Nat) (p : PathV) : Prop :=
  (∀ q pq, (h.nodes nid).parent = some q → (h.nodes q).path = some pq →
    Path_getSharedPrefixDepth p pq = Path_getDepth p - 1)
  ∧ (Path_getDepth p = 1 → (h.nodes nid).parent = none)
  ∧ (1 < Path_getDepth p → (h.nodes nid).parent ≠ none)
  ∧ (Path_getDepth p = 1 → pathnameHasSlash p = false)

/-- A plain single-node record used as the default store entry: a
depth-1 path with no parent and no children. -/
def baseRec : NodeRec :=
  { path := some ⟨"a", []⟩, parent := none, children := [] }

/-- A store whose reciprocity is broken and nothing else: node 1 sits
in the child list of the root 0, but its parent reference is node 2,
whose record carries the path expected by the prefix check. -/
def hxC1 : DTHeap :=
  ⟨fun n =>
    if n = 0 then
      { path := some ⟨"a", []⟩, parent := none, children := [⟨SUCCESS, some 1⟩] }
    else if n = 1 then
      { path := some ⟨"a", ["b"]⟩, parent := some 2, children := [] }
    else baseRec⟩

/-- A store whose root node 0 has a present parent (node 1) while the
root path has depth 1. -/
def hxC1w : DTHeap :=
  ⟨fun n =>
    if n = 0 then
      { path := some ⟨"a", []⟩, parent := some 1, children := [] }
    else baseRec⟩

/-- A store whose root has two present children listed out of
lexicographic order. -/
def hxC2 : DTHeap :=
  ⟨fun n =>
    if n = 0 then
      { path := some ⟨"a", []⟩, parent := none,
        children := [⟨SUCCESS, some 1⟩, ⟨SUCCESS, some 2⟩] }
    else if n = 1 then
      { path := some ⟨"a", ["c"]⟩, parent := some 0, children := [] }
    else if n = 2 then
      { path := some ⟨"a", ["b"]⟩, parent := some 0, children := [] }
    else baseRec⟩

/-- A store whose root has two children with equal paths. -/
def hxC3 : DTHeap :=
  ⟨fun n =>
    if n = 0 then
      { path := some ⟨"a", []⟩, parent := none,
        children := [⟨SUCCESS, some 1⟩, ⟨SUCCESS, some 2⟩] }
    else if n = 1 then
      { path := some ⟨"a", ["b"]⟩, parent := some 0, children := [] }
    else if n = 2 then
      { path := some ⟨"a", ["b"]⟩, parent := some 0, children := [] }
    else baseRec⟩

/-- A store whose node 0 has a NULL path. -/
def hxC4 : DTHeap :=
  ⟨fun n =>
    if n = 0 then { path := none, parent := none, children := [] }
    else baseRec⟩

/-- A well-formed three-node store: root a with children a slash b and
a slash c in order. -/
def hxC5 : DTHeap :=
  ⟨fun n =>
    if n = 0 then
      { path := some ⟨"a", []⟩, parent := none,
        children := [⟨SUCCESS, some 1⟩, ⟨SUCCESS, some 2⟩] }
    else if n = 1 then
      { path := some ⟨"a", ["b"]⟩, parent := some 0, children := [] }
    else if n = 2 then
      { path := some ⟨"a", ["c"]⟩, parent := some 0, children := [] }
    else baseRec⟩

/-- A second well-formed three-node store, used for the count claim. -/
def hxC6 : DTHeap :=
  ⟨fun n =>
    if n = 0 then
      { path := some ⟨"a", []⟩, parent := none,
        children := [⟨SUCCESS, some 1⟩, ⟨SUCCESS, some 2⟩] }
    else if n = 1 then
      { path := some ⟨"a", ["b"]⟩, parent := some 0, children := [] }
    else if n = 2 then
      { path := some ⟨"a", ["c"]⟩, parent := some 0, children := [] }
    else baseRec⟩

/-- A trivial store for the uninitialized-tree claim. -/
def hxC7 : DTHeap :=
  ⟨fun _ => baseRec⟩

/-- A store whose reciprocity is broken and nothing else: node 1 sits
in the child list of the root 0, but its parent reference is node 3,
whose record carries the path expected by the prefix check. -/
def hxC8 : DTHeap :=
  ⟨fun n =>
    if n = 0 then
      { path := some ⟨"a", []⟩, parent := none, children := [⟨SUCCESS, some 1⟩] }
    else if n = 1 then
      { path := some ⟨"a", ["b"]⟩, parent := some 3, children := [] }
    else baseRec⟩

/-- A trivial store for the skipped-child claim. -/
def hxC10 : DTHeap :=
  ⟨fun _ => baseRec⟩

/-- A tail-check result carries no diagnostics when true and exactly
one diagnostic line when false. -/
lemma nodeIsValidTail_shape (h : DTHeap) (nid : Nat) (pa : Option Nat) (b : Bool)
    (ds : List Diag) (H : nodeIsValidTail h nid pa = some (b, ds)) :
    (b = true → ds = []) ∧ (b = false → ds.length = 1) := by
  unfold nodeIsValidTail at H
  split at H
  · exact absurd H (by simp)
  · split_ifs at H <;>
      (simp only [Option.some.injEq, Prod.mk.injEq] at H; obtain ⟨rfl, rfl⟩ := H; simp)

/-- A per-node check result carries no diagnostics when true and
exactly one diagnostic line when false. -/
lemma nodeIsValid_shape (h : DTHeap) (n : Option Nat) (b : Bool) (ds : List Diag)
    (H : CheckerDT_Node_isValid h n = some (b, ds)) :
    (b = true → ds = []) ∧ (b = false → ds.length = 1) := by
  cases n with
  | none =>
    simp only [CheckerDT_Node_isValid, Option.some.injEq, Prod.mk.injEq] at H
    obtain ⟨rfl, rfl⟩ := H; simp
  | some nid =>
    simp only [CheckerDT_Node_isValid] at H
    split at H
    · split at H
      all_goals try exact Option.noConfusion H
      split_ifs at H
      · simp only [Option.some.injEq, Prod.mk.injEq] at H
        obtain ⟨rfl, rfl⟩ := H; simp
      · exact nodeIsValidTail_shape h nid _ b ds H
    · exact nodeIsValidTail_shape h nid _ b ds H

/-- A sibling-order check result carries no diagnostics when true and
exactly one diagnostic line when false. -/
lemma treeCheckSiblings_shape (h : DTHeap) : ∀ slots (b : Bool) (ds : List Diag),
    treeCheckSiblings h slots = some (b, ds) →
    (b = true → ds = []) ∧ (b = false → ds.length = 1) := by
  intro slots
  induction slots with
  | nil =>
    intro b ds H
    simp only [treeCheckSiblings, Option.some.injEq, Prod.mk.injEq] at H
    obtain ⟨rfl, rfl⟩ := H; simp
  | cons s1 tail ih =>
    intro b ds H
    match tail with
    | [] =>
      simp only [treeCheckSiblings, Option.some.injEq, Prod.mk.injEq] at H
      obtain ⟨rfl, rfl⟩ := H; simp
    | s2 :: rest =>
      simp only [treeCheckSiblings] at H
      split at H
      · split at H
        all_goals try exact Option.noConfusion H
        split_ifs at H
        · simp only [Option.some.injEq, Prod.mk.injEq] at H
          obtain ⟨rfl, rfl⟩ := H; simp
        · exact ih b ds H
      · exact ih b ds H

/-- An inner duplicate-scan result carries no diagnostics when true and
exactly one diagnostic line when false. -/
lemma noDupInner_shape (h : DTHeap) (s1 : ChildSlot) : ∀ slots (b : Bool) (ds : List Diag),
    noDupInner h s1 slots = some (b, ds) →
    (b = true → ds = []) ∧ (b = false → ds.length = 1) := by
  intro slots
  induction slots with
  | nil =>
    intro b ds H
    simp only [noDupInner, Option.some.injEq, Prod.mk.injEq] at H
    obtain ⟨rfl, rfl⟩ := H; simp
  | cons s2 rest ih =>
    intro b ds H
    simp only [noDupInner] at H
    split at H
    · split at H
      all_goals try exact Option.noConfusion H
      split_ifs at H
      · simp only [Option.some.injEq, Prod.mk.injEq] at H
        obtain ⟨rfl, rfl⟩ := H; simp
      · exact ih b ds H
    · exact ih b ds H

/-- A duplicate-check result carries no diagnostics when true and
exactly one diagnostic line when false. -/
lemma noDup_shape (h : DTHeap) : ∀ slots (b : Bool) (ds : List Diag),
    CheckerDT_noDuplicateChildren h slots = some (b, ds) →
    (b = true → ds = []) ∧ (b = false → ds.length = 1) := by
  intro slots
  induction slots with
  | nil =>
    intro b ds H
    simp only [CheckerDT_noDuplicateChildren, Option.some.injEq, Prod.mk.injEq] at H
    obtain ⟨rfl, rfl⟩ := H; simp
  | cons s rest ih =>
    intro b ds H
    simp only [CheckerDT_noDuplicateChildren] at H
    split at H
    · exact ih b ds H
    · exact noDupInner_shape h s rest b ds H

/-- Counter and diagnostic accounting for the traversal engine: the
counter never decreases, a true return adds exactly the reachable-node
count and prints nothing, and a false return prints exactly one line. -/
lemma tcGo_spec (h : DTHeap) : ∀ fuel t cnt (b : Bool) (c : Nat) (ds : List Diag),
    tcGo h fuel t cnt = some (b, c, ds) →
    cnt ≤ c ∧ (b = true → c = cnt + reachGo h fuel t ∧ ds = []) ∧
      (b = false → ds.length = 1) := by
  intro fuel
  induction fuel with
  | zero =>
    intro t cnt b c ds H
    match t with
    | Sum.inl none =>
      simp only [tcGo, Option.some.injEq, Prod.mk.injEq] at H
      obtain ⟨rfl, rfl, rfl⟩ := H
      simp [reachGo]
    | Sum.inr [] =>
      simp only [tcGo, Option.some.injEq, Prod.mk.injEq] at H
      obtain ⟨rfl, rfl, rfl⟩ := H
      simp [reachGo]
    | Sum.inl (some nid) =>
      simp only [tcGo] at H
      exact Option.noConfusion H
    | Sum.inr (s :: r) =>
      simp only [tcGo] at H
      exact Option.noConfusion H
  | succ fuel ih =>
    intro t cnt b c ds H
    match t with
    | Sum.inl none =>
      simp only [tcGo, Option.some.injEq, Prod.mk.injEq] at H
      obtain ⟨rfl, rfl, rfl⟩ := H
      simp [reachGo]
    | Sum.inr [] =>
      simp only [tcGo, Option.some.injEq, Prod.mk.injEq] at H
      obtain ⟨rfl, rfl, rfl⟩ := H
      simp [reachGo]
    | Sum.inl (some nid) =>
      simp only [tcGo] at H
      cases hnv : CheckerDT_Node_isValid h (some nid) with
      | none => rw [hnv] at H; exact Option.noConfusion H
      | some v =>
        obtain ⟨b1, ds1⟩ := v
        rw [hnv] at H
        cases b1 with
        | false =>
          simp only [Option.some.injEq, Prod.mk.injEq] at H
          obtain ⟨rfl, rfl, rfl⟩ := H
          refine ⟨Nat.le_succ cnt, by simp, ?_⟩
          intro _
          exact (nodeIsValid_shape h (some nid) false ds1 hnv).2 rfl
        | true =>
          cases hsb : treeCheckSiblings h (h.nodes nid).children with
          | none => rw [hsb] at H; exact Option.noConfusion H
          | some v2 =>
            obtain ⟨b2, ds2⟩ := v2
            rw [hsb] at H
            cases b2 with
            | false =>
              simp only [Option.some.injEq, Prod.mk.injEq] at H
              obtain ⟨rfl, rfl, rfl⟩ := H
              refine ⟨Nat.le_succ cnt, by simp, ?_⟩
              intro _
              exact (treeCheckSiblings_shape h _ false ds2 hsb).2 rfl
            | true =>
              cases hdp : CheckerDT_noDuplicateChildren h (h.nodes nid).children with
              | none => rw [hdp] at H; exact Option.noConfusion H
              | some v3 =>
                obtain ⟨b3, ds3⟩ := v3
                rw [hdp] at H
                cases b3 with
                | false =>
                  simp only [Option.some.injEq, Prod.mk.injEq] at H
                  obtain ⟨rfl, rfl, rfl⟩ := H
                  refine ⟨Nat.le_succ cnt, by simp, ?_⟩
                  intro _
                  exact (noDup_shape h _ false ds3 hdp).2 rfl
                | true =>
                  obtain ⟨g1, g2, g3⟩ :=
                    ih (Sum.inr (h.nodes nid).children) (cnt + 1) b c ds H
                  refine ⟨Nat.le_trans (Nat.le_succ cnt) g1, ?_, g3⟩
                  intro hb
                  obtain ⟨gc, gds⟩ := g2 hb
                  refine ⟨?_, gds⟩
                  rw [gc]
                  simp only [reachGo]
                  omega
    | Sum.inr (slot :: rest) =>
      simp only [tcGo] at H
      split_ifs at H with hst
      · simp only [Option.some.injEq, Prod.mk.injEq] at H
        obtain ⟨rfl, rfl, rfl⟩ := H
        exact ⟨Nat.le_refl cnt, by simp, by simp⟩
      · cases hrec : tcGo h fuel (Sum.inl slot.node) cnt with
        | none => rw [hrec] at H; exact Option.noConfusion H
        | some v =>
          obtain ⟨b1, c1, ds1⟩ := v
          rw [hrec] at H
          cases b1 with
          | false =>
            simp only [Option.some.injEq, Prod.mk.injEq] at H
            obtain ⟨rfl, rfl, rfl⟩ := H
            obtain ⟨g1, g2, g3⟩ := ih (Sum.inl slot.node) cnt false c1 ds1 hrec
            exact ⟨g1, by simp, g3⟩
          | true =>
            obtain ⟨g1, g2, g3⟩ := ih (Sum.inl slot.node) cnt true c1 ds1 hrec
            obtain ⟨k1, k2, k3⟩ := ih (Sum.inr rest) c1 b c ds H
            refine ⟨Nat.le_trans g1 k1, ?_, k3⟩
            intro hb
            obtain ⟨kc, kds⟩ := k2 hb
            obtain ⟨gc, gds⟩ := g2 rfl
            refine ⟨?_, kds⟩
            rw [kc, gc]
            simp only [reachGo]
            omega

/-- Entering a present node always bumps the counter at least once
before any recursion completes (pre-order counting). -/
lemma tcGo_node_incr (h : DTHeap) (fuel nid cnt : Nat) (b : Bool) (c : Nat)
    (ds : List Diag) (H : tcGo h fuel (Sum.inl (some nid)) cnt = some (b, c, ds)) :
    cnt + 1 ≤ c := by
  cases fuel with
  | zero => simp only [tcGo] at H; exact Option.noConfusion H
  | succ fuel =>
    simp only [tcGo] at H
    cases hnv : CheckerDT_Node_isValid h (some nid) with
    | none => rw [hnv] at H; exact Option.noConfusion H
    | some v =>
      obtain ⟨b1, ds1⟩ := v
      rw [hnv] at H
      cases b1 with
      | false =>
        simp only [Option.some.injEq, Prod.mk.injEq] at H
        obtain ⟨rfl, rfl, rfl⟩ := H
        exact Nat.le_refl (cnt + 1)
      | true =>
        cases hsb : treeCheckSiblings h (h.nodes nid).children with
        | none => rw [hsb] at H; exact Option.noConfusion H
        | some v2 =>
          obtain ⟨b2, ds2⟩ := v2
          rw [hsb] at H
          cases b2 with
          | false =>
            simp only [Option.some.injEq, Prod.mk.injEq] at H
            obtain ⟨rfl, rfl, rfl⟩ := H
            exact Nat.le_refl (cnt + 1)
          | true =>
            cases hdp : CheckerDT_noDuplicateChildren h (h.nodes nid).children with
            | none => rw [hdp] at H; exact Option.noConfusion H
            | some v3 =>
              obtain ⟨b3, ds3⟩ := v3
              rw [hdp] at H
              cases b3 with
              | false =>
                simp only [Option.some.injEq, Prod.mk.injEq] at H
                obtain ⟨rfl, rfl, rfl⟩ := H
                exact Nat.le_refl (cnt + 1)
              | true =>
                exact (tcGo_spec h fuel (Sum.inr (h.nodes nid).children)
                  (cnt + 1) b c ds H).1

/-- C1.  Counterexample: in the store hxC1 node 1 is a child of the
root 0 while its parent reference is node 2, so reciprocity (I6) is
violated, yet CheckerDT_isValid accepts the tree: the checker performs
no reciprocity check at all. -/
theorem checkerDT_c1_cex :
    CheckerDT_isValid hxC1 20 true (some 0) 2 = some (true, []) ∧
    (hxC1.nodes 0).children = [⟨SUCCESS, some 1⟩] ∧
    (hxC1.nodes 1).parent = some 2 ∧ (2 : Nat) ≠ 0 := by
  decide

/-- C1 (amended).  A present-parent root is rejected only through the
per-node depth checks: whenever the root's path is present with depth 1
and its parent reference is present with a present path,
CheckerDT_isValid returns false; reciprocity itself is never examined. -/
theorem checkerDT_c1_amended (h : DTHeap) (fuel r q cnt : Nat) (p pq : PathV)
    (hp : (h.nodes r).path = some p) (hd : Path_getDepth p = 1)
    (hq : (h.nodes r).parent = some q) (hqp : (h.nodes q).path = some pq) :
    ∃ ds, CheckerDT_isValid h (fuel + 1) true (some r) cnt = some (false, ds) := by
  have hnv : ∃ ds1, CheckerDT_Node_isValid h (some r) = some (false, ds1) := by
    by_cases hc : Path_getSharedPrefixDepth p pq ≠ Path_getDepth p - 1
    · exact ⟨[Diag.pcPaths (Path_getPathname pq) (Path_getPathname p)],
        by simp only [CheckerDT_Node_isValid, hq, hp, hqp, if_pos hc]⟩
    · refine ⟨[Diag.rootHasParent], ?_⟩
      simp only [CheckerDT_Node_isValid, hq, hp, hqp, if_neg hc, nodeIsValidTail]
      rw [if_pos ⟨hd, by simp⟩]
  obtain ⟨ds1, hnv⟩ := hnv
  refine ⟨ds1, ?_⟩
  have htc : CheckerDT_treeCheck h (fuel + 1) (some r) 0 = some (false, 1, ds1) := by
    simp only [CheckerDT_treeCheck, tcGo, hnv]
  simp only [CheckerDT_isValid, htc]
  simp

/-- C1 (witness).  The amended statement applied at the store hxC1w,
whose root 0 has depth-1 path and a present parent. -/
theorem checkerDT_c1_amended_w :
    ∃ ds, CheckerDT_isValid hxC1w (4 + 1) true (some 0) 1 = some (false, ds) :=
  checkerDT_c1_amended hxC1w 4 0 1 1 ⟨"a", []⟩ ⟨"a", []⟩ (by decide) (by decide)
    (by decide) (by decide)

/-- C2.  Counterexample: in the store hxC2 the root's two children are
out of lexicographic order (I7 violated at the root), yet
CheckerDT_Node_isValid accepts the root: the per-node predicate checks
neither sibling order nor duplicates nor reciprocity. -/
theorem checkerDT_c2_cex :
    CheckerDT_Node_isValid hxC2 (some 0) = some (true, []) ∧
    (hxC2.nodes 0).children = [⟨SUCCESS, some 1⟩, ⟨SUCCESS, some 2⟩] ∧
    (hxC2.nodes 1).path = some ⟨"a", ["c"]⟩ ∧
    (hxC2.nodes 2).path = some ⟨"a", ["b"]⟩ ∧
    0 < Path_comparePath ⟨"a", ["c"]⟩ ⟨"a", ["b"]⟩ := by
  decide

/-- C4.  The claim is right and the code is wrong: for a non-null node
whose path is NULL, the source calls Path_getDepth on the NULL path
(line 76) before its NULL test (line 89), so instead of failing I2 with
a diagnostic the checker reaches undefined behaviour; the model returns
none rather than some false. -/
theorem checkerDT_c4_nullpath :
    (hxC4.nodes 0).path = none ∧
    CheckerDT_Node_isValid hxC4 (some 0) = none ∧
    CheckerDT_treeCheck hxC4 5 (some 0) 0 = none := by
  decide

/-- C5.  The traversal counts in pre-order: entering a present node
bumps the counter before any recursion completes, a true return adds
exactly the reachable-node count and prints nothing, and an absent node
returns true leaving the counter untouched. -/
theorem checkerDT_c5_preorder_count (h : DTHeap) (fuel n cnt : Nat) (b : Bool)
    (c : Nat) (ds : List Diag)
    (H : CheckerDT_treeCheck h fuel (some n) cnt = some (b, c, ds)) :
    cnt + 1 ≤ c ∧
    (b = true → c = cnt + specReachableCount h fuel (some n) ∧ ds = []) ∧
    (∀ f k, CheckerDT_treeCheck h f none k = some (true, k, [])) := by
  refine ⟨tcGo_node_incr h fuel n cnt b c ds H, ?_, ?_⟩
  · intro hb
    exact (tcGo_spec h fuel (Sum.inl (some n)) cnt b c ds H).2.1 hb
  · intro f k
    simp [CheckerDT_treeCheck, tcGo]

/-- C5 (witness).  The counting statement applied at the three-node
store hxC5, where the traversal returns true with counter 3. -/
theorem checkerDT_c5_preorder_count_w :
    0 + 1 ≤ 3 ∧
    (true = true → 3 = 0 + specReachableCount hxC5 9 (some 0) ∧ ([] : List Diag) = []) ∧
    (∀ f k, CheckerDT_treeCheck hxC5 f none k = some (true, k, [])) :=
  checkerDT_c5_preorder_count hxC5 9 0 0 true 3 [] (by decide)

/-- C2 (amended).  For a node with a present path (and a present parent
path when a parent is present), CheckerDT_Node_isValid returns true
exactly when the checks it actually performs hold: the parent-prefix
comparison, root-has-no-parent, non-root-has-parent, and the root-slash
test.  Sibling order, duplicates and reciprocity are not part of the
per-node predicate. -/
theorem checkerDT_c2_amended (h : DTHeap) (nid : Nat) (p : PathV)
    (hp : (h.nodes nid).path = some p)
    (hq : (h.nodes nid).parent = none ∨
      ∃ q pq, (h.nodes nid).parent = some q ∧ (h.nodes q).path = some pq) :
    (CheckerDT_Node_isValid h (some nid) = some (true, []) ↔ specNodeChecks h nid p) := by
  have hd1 : 1 ≤ Path_getDepth p := by
    simp [Path_getDepth, PathV.components]
  rcases hq with hpar | ⟨q, pq, hpar, hqp⟩
  · by_cases hlt : 1 < Path_getDepth p
    · have hne : Path_getDepth p ≠ 1 := by omega
      simp [CheckerDT_Node_isValid, hpar, nodeIsValidTail, hp, hlt, hne,
        specNodeChecks]
    · have hdeq : Path_getDepth p = 1 := by omega
      by_cases hs : pathnameHasSlash p
      · simp [CheckerDT_Node_isValid, hpar, nodeIsValidTail, hp, hlt, hdeq, hs,
          specNodeChecks]
      · simp [CheckerDT_Node_isValid, hpar, nodeIsValidTail, hp, hlt, hdeq, hs,
          specNodeChecks]
  · by_cases hc : Path_getSharedPrefixDepth p pq ≠ Path_getDepth p - 1
    · constructor
      · intro He
        exact absurd He (by simp [CheckerDT_Node_isValid, hpar, hp, hqp, if_pos hc])
      · intro Hs
        exact absurd (Hs.1 q pq hpar hqp) hc
    · push_neg at hc
      by_cases hlt : 1 < Path_getDepth p
      · have hne : Path_getDepth p ≠ 1 := by omega
        constructor
        · intro _
          refine ⟨?_, ?_, ?_, ?_⟩
          · intro q2 pq2 hpar2 hqp2
            rw [hpar2] at hpar
            injection hpar with hqq
            subst hqq
            rw [hqp2] at hqp
            injection hqp with hpp
            subst hpp
            exact hc
          · intro hde; exact absurd hde hne
          · intro _; rw [hpar]; simp
          · intro hde; exact absurd hde hne
        · intro _
          simp [CheckerDT_Node_isValid, hpar, hp, hqp, if_neg (by omega : ¬ Path_getSharedPrefixDepth p pq ≠ Path_getDepth p - 1),
            nodeIsValidTail, hne, hlt]
      · have hdeq : Path_getDepth p = 1 := by omega
        constructor
        · intro He
          exfalso
          have : CheckerDT_Node_isValid h (some nid) = some (false, [Diag.rootHasParent]) := by
            simp only [CheckerDT_Node_isValid, hpar, hp, hqp,
              if_neg (by omega : ¬ Path_getSharedPrefixDepth p pq ≠ Path_getDepth p - 1),
              nodeIsValidTail]
            rw [if_pos ⟨hdeq, by simp⟩]
          rw [this] at He
          simp at He
        · intro Hs
          exact absurd (Hs.2.1 hdeq) (by rw [hpar]; simp)

/-- C2 (witness).  The characterization applied at node 1 of hxC2,
whose parent 0 carries a present path. -/
theorem checkerDT_c2_amended_w :
    (CheckerDT_Node_isValid hxC2 (some 1) = some (true, []) ↔
      specNodeChecks hxC2 1 ⟨"a", ["c"]⟩) :=
  checkerDT_c2_amended hxC2 1 ⟨"a", ["c"]⟩ (by decide)
    (Or.inr ⟨0, ⟨"a", []⟩, by decide, by decide⟩)

/-- C3.  Counterexample: in the store hxC3 the root's two children have
equal paths, the sibling-order loop passes (its test is strictly
greater, not greater-or-equal), and the failure is reported by the
duplicate check, not as an I7 ordering violation. -/
theorem checkerDT_c3_cex :
    treeCheckSiblings hxC3 (hxC3.nodes 0).children = some (true, []) ∧
    Path_comparePath ⟨"a", ["b"]⟩ ⟨"a", ["b"]⟩ = 0 ∧
    (hxC3.nodes 1).path = some ⟨"a", ["b"]⟩ ∧
    (hxC3.nodes 2).path = some ⟨"a", ["b"]⟩ ∧
    CheckerDT_isValid hxC3 20 true (some 0) 3 = some (false, [Diag.dupChildren]) ∧
    Diag.dupChildren ≠ Diag.lexOrder := by
  decide

/-- C3 (amended).  When two consecutive present children carry present
paths that compare equal, the sibling-order loop does not fail (its
test is strictly greater than zero), and the duplicate check fails with
the duplicate-children diagnostic. -/
theorem checkerDT_c3_amended (h : DTHeap) (s1 s2 : ChildSlot) (c1 c2 : Nat)
    (p1 p2 : PathV) (h1 : s1.node = some c1) (h2 : s2.node = some c2)
    (hp1 : (h.nodes c1).path = some p1) (hp2 : (h.nodes c2).path = some p2)
    (hcmp : Path_comparePath p1 p2 = 0) :
    treeCheckSiblings h [s1, s2] = some (true, []) ∧
    CheckerDT_noDuplicateChildren h [s1, s2] = some (false, [Diag.dupChildren]) := by
  constructor
  · simp [treeCheckSiblings, h1, h2, hp1, hp2, hcmp]
  · simp [CheckerDT_noDuplicateChildren, noDupInner, h1, h2, hp1, hp2, hcmp]

/-- C3 (witness).  The amended statement applied at the equal-path
children of hxC3. -/
theorem checkerDT_c3_amended_w :
    treeCheckSiblings hxC3 [⟨SUCCESS, some 1⟩, ⟨SUCCESS, some 2⟩] = some (true, []) ∧
    CheckerDT_noDuplicateChildren hxC3 [⟨SUCCESS, some 1⟩, ⟨SUCCESS, some 2⟩] =
      some (false, [Diag.dupChildren]) :=
  checkerDT_c3_amended hxC3 ⟨SUCCESS, some 1⟩ ⟨SUCCESS, some 2⟩ 1 2
    ⟨"a", ["b"]⟩ ⟨"a", ["b"]⟩ rfl rfl (by decide) (by decide) (by decide)

/-- C6.  For an initialized tree whose traversal succeeds, the checker
accepts exactly when the pre-order reachable-node count equals the
claimed count, and the empty initialized tree with claimed count zero
is accepted. -/
theorem checkerDT_c6_count (h : DTHeap) (fuel : Nat) (root : Option Nat) (c k : Nat)
    (H : CheckerDT_treeCheck h fuel root 0 = some (true, k, [])) :
    (CheckerDT_isValid h fuel true root c = some (true, []) ↔
      specReachableCount h fuel root = c) ∧
    CheckerDT_isValid h fuel true none 0 = some (true, []) := by
  have hk : k = specReachableCount h fuel root := by
    have hs := (tcGo_spec h fuel (Sum.inl root) 0 true k [] H).2.1 rfl
    simpa [specReachableCount] using hs.1
  have hempty : CheckerDT_isValid h fuel true none 0 = some (true, []) := by
    have ht : CheckerDT_treeCheck h fuel none 0 = some (true, 0, []) := by
      simp [CheckerDT_treeCheck, tcGo]
    simp [CheckerDT_isValid, ht]
  refine ⟨?_, hempty⟩
  cases root with
  | none =>
    have ht : CheckerDT_treeCheck h fuel none 0 = some (true, 0, []) := by
      simp [CheckerDT_treeCheck, tcGo]
    rw [ht] at H
    simp only [Option.some.injEq, Prod.mk.injEq] at H
    obtain ⟨-, hk0, -⟩ := H
    by_cases hc : c = 0
    · subst hc
      rw [hempty]
      simp only [← hk, ← hk0]
    · have hcpos : 0 < c := Nat.pos_of_ne_zero hc
      have hLHS : CheckerDT_isValid h fuel true none c =
          some (false, [Diag.initRootNull]) := by
        simp [CheckerDT_isValid, hcpos]
      rw [hLHS]
      constructor
      · intro He; exact absurd He (by simp)
      · intro Hr
        rw [← hk, ← hk0] at Hr
        exact absurd Hr.symm hc
  | some r =>
    have hIV : CheckerDT_isValid h fuel true (some r) c =
        (if k ≠ c then some (false, [Diag.countMismatch]) else some (true, [])) := by
      simp only [CheckerDT_isValid]
      rw [if_neg (by simp), if_neg (by simp), H]
    rw [hIV]
    by_cases hkc : k = c
    · rw [if_neg (by omega)]
      rw [← hk]
      simp [hkc]
    · rw [if_pos hkc]
      constructor
      · intro He; exact absurd He (by simp)
      · intro Hr
        rw [← hk] at Hr
        exact absurd Hr hkc

/-- C6 (witness).  The count statement applied at the three-node store
hxC6 with claimed count 5, from which the rejection of the 3-node tree
with claimed count 5 follows. -/
theorem checkerDT_c6_count_w :
    (CheckerDT_isValid hxC6 9 true (some 0) 5 = some (true, []) ↔
      specReachableCount hxC6 9 (some 0) = 5) ∧
    CheckerDT_isValid hxC6 9 true none 0 = some (true, []) :=
  checkerDT_c6_count hxC6 9 (some 0) 5 3 (by decide)

/-- C7.  On an uninitialized tree the checker accepts exactly when the
claimed count is zero and the root is absent, rejecting a nonzero count
with the count diagnostic and a present root with the root diagnostic,
and accepting with no diagnostics at all. -/
theorem checkerDT_c7_uninit (h : DTHeap) (fuel : Nat) (root : Option Nat) (c : Nat) :
    (CheckerDT_isValid h fuel false root c = some (true, []) ↔ (c = 0 ∧ root = none)) ∧
    (c ≠ 0 → CheckerDT_isValid h fuel false root c = some (false, [Diag.notInitCount])) ∧
    (c = 0 → root ≠ none →
      CheckerDT_isValid h fuel false root c = some (false, [Diag.notInitRoot])) := by
  by_cases hc : c = 0 <;> by_cases hr : root = none <;>
    simp [CheckerDT_isValid, hc, hr]

/-- C7 (witness).  The uninitialized statement applied at a present
root with claimed count zero. -/
theorem checkerDT_c7_uninit_w :
    CheckerDT_isValid hxC7 1 false (some 0) 0 = some (false, [Diag.notInitRoot]) :=
  (checkerDT_c7_uninit hxC7 1 (some 0) 0).2.2 rfl (by decide)

/-- C8.  Counterexample: the store hxC8 corrupts exactly one invariant,
reciprocity (node 1 is a child of the root 0 but points at node 3 as
its parent), yet the checker accepts the tree emitting no diagnostic
at all, rather than returning false with one diagnostic line. -/
theorem checkerDT_c8_cex :
    CheckerDT_isValid hxC8 20 true (some 0) 2 = some (true, []) ∧
    (hxC8.nodes 0).children = [⟨SUCCESS, some 1⟩] ∧
    (hxC8.nodes 1).parent = some 3 ∧ (3 : Nat) ≠ 0 := by
  decide

/-- C8 (amended).  Every failing CheckerDT_isValid call emits exactly
one diagnostic line and every accepting call emits none (the checker
short-circuits on the first violation); detection of every single
corruption does not hold, since reciprocity is never examined. -/
theorem checkerDT_c8_amended (h : DTHeap) (fuel : Nat) (init : Bool)
    (root : Option Nat) (c : Nat) (b : Bool) (ds : List Diag)
    (H : CheckerDT_isValid h fuel init root c = some (b, ds)) :
    (b = false → ds.length = 1) ∧ (b = true → ds = []) := by
  cases init with
  | false =>
    simp only [CheckerDT_isValid, if_pos rfl] at H
    split_ifs at H <;>
      (simp only [Option.some.injEq, Prod.mk.injEq] at H;
       obtain ⟨rfl, rfl⟩ := H; simp)
  | true =>
    simp only [CheckerDT_isValid] at H
    rw [if_neg (by simp)] at H
    split_ifs at H with h1
    · simp only [Option.some.injEq, Prod.mk.injEq] at H
      obtain ⟨rfl, rfl⟩ := H; simp
    · cases htc : CheckerDT_treeCheck h fuel root 0 with
      | none => rw [htc] at H; exact Option.noConfusion H
      | some v =>
        obtain ⟨b1, c1, ds1⟩ := v
        rw [htc] at H
        cases b1 with
        | false =>
          replace H : some (false, ds1) = some (b, ds) := H
          simp only [Option.some.injEq, Prod.mk.injEq] at H
          obtain ⟨rfl, rfl⟩ := H
          refine ⟨fun _ => ?_, by simp⟩
          exact (tcGo_spec h fuel (Sum.inl root) 0 false c1 ds1 htc).2.2 rfl
        | true =>
          replace H : (if c1 ≠ c then some (false, [Diag.countMismatch])
            else some (true, [])) = some (b, ds) := H
          split_ifs at H <;>
            (simp only [Option.some.injEq, Prod.mk.injEq] at H;
             obtain ⟨rfl, rfl⟩ := H; simp)

/-- C8 (witness).  The one-diagnostic statement applied at an
uninitialized call with nonzero claimed count. -/
theorem checkerDT_c8_amended_w :
    ((false : Bool) = false → ([Diag.notInitCount] : List Diag).length = 1) ∧
    ((false : Bool) = true → [Diag.notInitCount] = ([] : List Diag)) :=
  checkerDT_c8_amended hxC8 1 false none 1 false [Diag.notInitCount] (by decide)

/-- C10.  A child slot whose accessor status is SUCCESS but whose
retrieved reference is NULL is skipped silently: the child loop passes
straight to the remaining slots without touching the counter or
printing, a traversal of the absent node returns true with the counter
unchanged, and the sibling and duplicate scans ignore every pair that
contains the absent reference. -/
theorem checkerDT_c10_skip (h : DTHeap) (fuel cnt : Nat) (slot s1 : ChildSlot)
    (rest rest2 : List ChildSlot) (h1 : slot.status = SUCCESS) (h2 : slot.node = none) :
    tcGo h (fuel + 1) (Sum.inr (slot :: rest)) cnt = tcGo h fuel (Sum.inr rest) cnt ∧
    CheckerDT_treeCheck h fuel none cnt = some (true, cnt, []) ∧
    treeCheckSiblings h (slot :: s1 :: rest2) = treeCheckSiblings h (s1 :: rest2) ∧
    treeCheckSiblings h (s1 :: slot :: rest2) = treeCheckSiblings h (slot :: rest2) ∧
    noDupInner h slot rest = some (true, []) ∧
    CheckerDT_noDuplicateChildren h (slot :: rest) =
      CheckerDT_noDuplicateChildren h rest := by
  have hskip : ∀ l, noDupInner h slot l = some (true, []) := by
    intro l
    induction l with
    | nil => simp [noDupInner]
    | cons s r ih =>
      simp only [noDupInner, h2]
      exact ih
  refine ⟨?_, ?_, ?_, ?_, hskip rest, ?_⟩
  · simp [tcGo, h1, h2]
  · simp [CheckerDT_treeCheck, tcGo]
  · simp only [treeCheckSiblings, h2]
  · cases hs1 : s1.node with
    | none => simp only [treeCheckSiblings, hs1]
    | some c1 => simp only [treeCheckSiblings, hs1, h2]
  · simp only [CheckerDT_noDuplicateChildren, hskip rest]

/-- C10 (witness).  The skip statement applied at a SUCCESS slot with a
NULL reference. -/
theorem checkerDT_c10_skip_w :
    tcGo hxC10 (3 + 1) (Sum.inr [⟨SUCCESS, none⟩]) 7 =
      tcGo hxC10 3 (Sum.inr []) 7 ∧
    CheckerDT_treeCheck hxC10 3 none 7 = some (true, 7, []) ∧
    treeCheckSiblings hxC10 [⟨SUCCESS, none⟩, ⟨SUCCESS, some 0⟩] =
      treeCheckSiblings hxC10 [⟨SUCCESS, some 0⟩] ∧
    treeCheckSiblings hxC10 [⟨SUCCESS, some 0⟩, ⟨SUCCESS, none⟩] =
      treeCheckSiblings hxC10 [⟨SUCCESS, none⟩] ∧
    noDupInner hxC10 ⟨SUCCESS, none⟩ [] = some (true, []) ∧
    CheckerDT_noDuplicateChildren hxC10 [⟨SUCCESS, none⟩] =
      CheckerDT_noDuplicateChildren hxC10 [] :=
  checkerDT_c10_skip hxC10 3 7 ⟨SUCCESS, none⟩ ⟨SUCCESS, some 0⟩ [] [] rfl rfl
